import Mathlib

/-!
Shallow embedding of the `position-intents` library (`src/lib.rs`).

Modelling conventions:
- `rust_decimal::Decimal` is modelled as `ℚ` (exact decimal arithmetic;
  decimals are a subset of the rationals and addition is exact).
- `chrono::DateTime<Utc>` is modelled as `ℤ` (a timestamp on a linear
  order; only ordering comparisons are used by the code).
- `uuid::Uuid` is modelled as `ℕ` (an opaque identifier).
- The ambient effects of `build` (`Uuid::new_v4()` and `Utc::now()`) are
  passed in as explicit parameters `id` and `now`.
- `Result<T, Error>` is modelled as `Except Error T`.
-/

namespace PositionIntents

/-- Model of `rust_decimal::Decimal`: exact decimal arithmetic. -/
abbrev Decimal := ℚ

/-- Model of `chrono::DateTime<Utc>`: a point on a linear time axis. -/
abbrev Timestamp := ℤ

/-- Model of `uuid::Uuid`: an opaque identifier. -/
abbrev Uuid := ℕ

/-- `enum AmountSpec` from `src/lib.rs` lines 19-26. -/
inductive AmountSpec
  | Dollars (amount : Decimal)
  | Shares (amount : Decimal)
  | Percent (amount : Decimal)
  | Zero
deriving DecidableEq, Repr

/-- `enum UpdatePolicy` from `src/lib.rs` lines 28-35. -/
inductive UpdatePolicy
  | Retain
  | RetainLong
  | RetainShort
  | Update
deriving DecidableEq, Repr

/-- `enum TickerSpec` from `src/lib.rs` lines 51-56. -/
inductive TickerSpec
  | Ticker (symbol : String)
  | All
deriving DecidableEq, Repr

/-- `enum Error` from `src/lib.rs` lines 7-17. -/
inductive Error
  | IncompatibleAmountError (left right : AmountSpec)
  | InvalidBeforeAfter (before after : Timestamp)
  | InvalidCombination
deriving DecidableEq, Repr

/-- `AmountSpec::merge` from `src/lib.rs` lines 38-48, with the match arms
in the source's order. -/
def AmountSpec.merge (self other : AmountSpec) : Except Error AmountSpec :=
  match self, other with
  | .Dollars x, .Dollars y => .ok (.Dollars (x + y))
  | .Shares x, .Shares y => .ok (.Shares (x + y))
  | .Percent x, .Percent y => .ok (.Percent (x + y))
  | .Zero, .Zero => .ok .Zero
  | .Zero, y => .ok y
  | x, .Zero => .ok x
  | x, y => .error (.IncompatibleAmountError x y)

/-- The constructor head of an `AmountSpec`, used to state "same variant". -/
def AmountSpec.variantTag : AmountSpec → Nat
  | .Dollars _ => 0
  | .Shares _ => 1
  | .Percent _ => 2
  | .Zero => 3

/-- C3: merging two `Dollars`, two `Shares`, or two `Percent` amounts
succeeds and sums the payloads with exact decimal addition. -/
theorem merge_same_variant_sums (x y : Decimal) :
    AmountSpec.merge (.Dollars x) (.Dollars y) = .ok (.Dollars (x + y)) ∧
    AmountSpec.merge (.Shares x) (.Shares y) = .ok (.Shares (x + y)) ∧
    AmountSpec.merge (.Percent x) (.Percent y) = .ok (.Percent (x + y)) :=
  ⟨rfl, rfl, rfl⟩

/-- C4: `Zero` is a two-sided identity of `merge`: merging `Zero` with any
amount on either side returns the other operand, and `Zero` with `Zero`
gives `Zero`. -/
theorem merge_zero_identity (v : AmountSpec) :
    AmountSpec.merge .Zero v = .ok v ∧ AmountSpec.merge v .Zero = .ok v := by
  cases v <;> exact ⟨rfl, rfl⟩

/-- C5: merging two non-`Zero` amounts of differing variants fails with
`IncompatibleAmountError` carrying both original operands in order. -/
theorem merge_incompatible (a b : AmountSpec) (ha : a ≠ .Zero) (hb : b ≠ .Zero)
    (hne : a.variantTag ≠ b.variantTag) :
    a.merge b = .error (.IncompatibleAmountError a b) := by
  cases a <;> cases b <;>
    simp_all [AmountSpec.merge, AmountSpec.variantTag]

/-- Witness for C5 at `Dollars 1` and `Shares 2`. -/
theorem merge_incompatible_witness :
    AmountSpec.merge (.Dollars 1) (.Shares 2) =
      .error (.IncompatibleAmountError (.Dollars 1) (.Shares 2)) :=
  merge_incompatible (.Dollars 1) (.Shares 2)
    (by decide) (by decide) (by decide)

/-- C6: `merge` is commutative-by-case: `merge a b` succeeds exactly when
`merge b a` does, and when both succeed the results are equal. -/
theorem merge_commutative_by_case (a b : AmountSpec) :
    ((∃ r, a.merge b = .ok r) ↔ (∃ s, b.merge a = .ok s)) ∧
    (∀ r s, a.merge b = .ok r → b.merge a = .ok s → r = s) := by
  cases a <;> cases b <;> simp [AmountSpec.merge, add_comm]

/-- Witness for C6: applying the equal-results part at `Dollars 1` and
`Dollars 2`. -/
theorem merge_commutative_by_case_witness :
    AmountSpec.Dollars (1 + 2) = AmountSpec.Dollars (2 + 1) :=
  (merge_commutative_by_case (.Dollars 1) (.Dollars 2)).2
    (.Dollars (1 + 2)) (.Dollars (2 + 1)) rfl rfl

/-- `impl<T: ToString> From<T> for TickerSpec` from `src/lib.rs` lines
58-62: the generic conversion wraps the value's string rendering in the
`Ticker` variant. The `ToString` bound is modelled by passing the
rendering function explicitly; for Rust's `String` the rendering is the
identity. -/
def TickerSpec.fromToString {T : Type} (toStr : T → String) (s : T) : TickerSpec :=
  .Ticker (toStr s)

/-- `struct PositionIntentBuilder` from `src/lib.rs` lines 64-76. -/
structure PositionIntentBuilder where
  strategy : String
  sub_strategy : Option String
  ticker : TickerSpec
  amount : AmountSpec
  update_policy : UpdatePolicy
  decision_price : Option Decimal
  limit_price : Option Decimal
  stop_price : Option Decimal
  before : Option Timestamp
  after : Option Timestamp
deriving DecidableEq, Repr

/-- `struct PositionIntent` from `src/lib.rs` lines 142-170. -/
structure PositionIntent where
  id : Uuid
  strategy : String
  sub_strategy : Option String
  timestamp : Timestamp
  ticker : TickerSpec
  amount : AmountSpec
  update_policy : UpdatePolicy
  decision_price : Option Decimal
  limit_price : Option Decimal
  stop_price : Option Decimal
  before : Option Timestamp
  after : Option Timestamp
deriving DecidableEq, Repr

/-- The tail of `PositionIntentBuilder::build` (`src/lib.rs` lines
120-138): the ticker/amount combination check followed by assembly of the
`PositionIntent`. Split out because the source uses early returns. -/
def PositionIntentBuilder.finishBuild (b : PositionIntentBuilder) (id : Uuid)
    (now : Timestamp) : Except Error PositionIntent :=
  match b.ticker, b.amount with
  | .All, .Dollars _ => .error .InvalidCombination
  | .All, .Shares _ => .error .InvalidCombination
  | _, _ =>
    .ok
      { id := id
        strategy := b.strategy
        sub_strategy := b.sub_strategy
        timestamp := now
        ticker := b.ticker
        amount := b.amount
        update_policy := b.update_policy
        decision_price := b.decision_price
        limit_price := b.limit_price
        stop_price := b.stop_price
        before := b.before
        after := b.after }

/-- `PositionIntentBuilder::build` from `src/lib.rs` lines 114-139.
The two side effects of the original (`Uuid::new_v4()` and `Utc::now()`)
are passed in as the parameters `id` and `now`. The `before`/`after`
window check runs first (the source's `self.before.zip(self.after)`
matches exactly when both are `Some`); on pass, control falls through to
`finishBuild`. -/
def PositionIntentBuilder.build (b : PositionIntentBuilder) (id : Uuid)
    (now : Timestamp) : Except Error PositionIntent :=
  match b.before, b.after with
  | some before, some afterT =>
    if before < afterT then .error (.InvalidBeforeAfter before afterT)
    else b.finishBuild id now
  | _, _ => b.finishBuild id now

/-- `PositionIntent::builder` from `src/lib.rs` lines 172-191: a fresh
builder with the three required fields and every optional field unset,
`update_policy` defaulting to `Update`. -/
def PositionIntent.builder (strategy : String) (ticker : TickerSpec)
    (amount : AmountSpec) : PositionIntentBuilder :=
  { strategy := strategy
    sub_strategy := none
    ticker := ticker
    amount := amount
    update_policy := .Update
    decision_price := none
    limit_price := none
    stop_price := none
    before := none
    after := none }

lemma finishBuild_ne_invalidBeforeAfter (b : PositionIntentBuilder)
    (id : Uuid) (now : Timestamp) (x y : Timestamp) :
    b.finishBuild id now ≠ .error (.InvalidBeforeAfter x y) := by
  cases h1 : b.ticker <;> cases h2 : b.amount <;>
    simp [PositionIntentBuilder.finishBuild, h1, h2]

lemma build_eq_finishBuild_of_window_pass (b : PositionIntentBuilder)
    (id : Uuid) (now : Timestamp)
    (hwin : ∀ bt af, b.before = some bt → b.after = some af → ¬ bt < af) :
    b.build id now = b.finishBuild id now := by
  cases hb : b.before with
  | none => cases ha : b.after <;> simp [PositionIntentBuilder.build, hb, ha]
  | some bt =>
    cases ha : b.after with
    | none => simp [PositionIntentBuilder.build, hb, ha]
    | some af =>
      simp [PositionIntentBuilder.build, hb, ha, hwin bt af hb ha]

/-- C1: when both `before` and `after` are set, `build` fails with
`InvalidBeforeAfter` carrying both timestamps exactly when
`before < after`; when either is unset, `build` never returns an
`InvalidBeforeAfter` error. -/
theorem build_window_check (b : PositionIntentBuilder) (id : Uuid)
    (now : Timestamp) :
    (∀ bt af, b.before = some bt → b.after = some af →
      (b.build id now = .error (.InvalidBeforeAfter bt af) ↔ bt < af)) ∧
    ((b.before = none ∨ b.after = none) →
      ∀ x y, b.build id now ≠ .error (.InvalidBeforeAfter x y)) := by
  constructor
  · intro bt af hb ha
    by_cases h : bt < af
    · simp [PositionIntentBuilder.build, hb, ha, h]
    · simp [PositionIntentBuilder.build, hb, ha, h,
        finishBuild_ne_invalidBeforeAfter]
  · intro h x y
    rcases h with h | h
    · cases ha : b.after <;>
        simp [PositionIntentBuilder.build, h, ha,
          finishBuild_ne_invalidBeforeAfter]
    · cases hb : b.before <;>
        simp [PositionIntentBuilder.build, h, hb,
          finishBuild_ne_invalidBeforeAfter]

/-- Witness for C1: a builder with `before = 0 < after = 1` fails with
`InvalidBeforeAfter 0 1`; a builder with both unset never reports
`InvalidBeforeAfter`. -/
theorem build_window_check_witness :
    ({ PositionIntent.builder "A" (.Ticker "AAPL") (.Dollars 1) with
        before := some 0, after := some 1 } : PositionIntentBuilder).build 0 0 =
      .error (.InvalidBeforeAfter 0 1) ∧
    (PositionIntent.builder "A" (.Ticker "AAPL") (.Dollars 1)).build 0 0 ≠
      .error (.InvalidBeforeAfter 0 0) :=
  ⟨((build_window_check _ 0 0).1 0 1 rfl rfl).mpr (by decide),
   (build_window_check _ 0 0).2 (Or.inl rfl) 0 0⟩

/-- C2: once the temporal-window check passes, `build` fails with
`InvalidCombination` exactly when the ticker is `All` and the amount is
`Dollars` or `Shares`; every other pairing builds successfully. -/
theorem build_combination_check (b : PositionIntentBuilder) (id : Uuid)
    (now : Timestamp)
    (hwin : ∀ bt af, b.before = some bt → b.after = some af → ¬ bt < af) :
    (b.build id now = .error .InvalidCombination ↔
      b.ticker = .All ∧ ∃ d, b.amount = .Dollars d ∨ b.amount = .Shares d) ∧
    (¬(b.ticker = .All ∧ ∃ d, b.amount = .Dollars d ∨ b.amount = .Shares d) →
      ∃ p, b.build id now = .ok p) := by
  rw [build_eq_finishBuild_of_window_pass b id now hwin]
  cases h1 : b.ticker <;> cases h2 : b.amount <;>
    simp [PositionIntentBuilder.finishBuild, h1, h2]

/-- Witness for C2: ticker `All` with `Dollars 100` is rejected with
`InvalidCombination`; a concrete ticker with `Dollars 100` builds. -/
theorem build_combination_check_witness :
    (PositionIntent.builder "A" .All (.Dollars 100)).build 0 0 =
      .error .InvalidCombination ∧
    ((PositionIntent.builder "A" (.Ticker "AAPL") (.Dollars 100)).build 0 0).isOk
      = true := by
  constructor
  · exact (build_combination_check (PositionIntent.builder "A" .All
      (.Dollars 100)) 0 0 (fun bt af hb ha => by cases hb)).1.mpr
      ⟨rfl, 100, Or.inl rfl⟩
  · obtain ⟨p, hp⟩ := (build_combination_check
      (PositionIntent.builder "A" (.Ticker "AAPL") (.Dollars 100)) 0 0
      (fun bt af hb ha => by cases hb)).2
      (fun h => TickerSpec.noConfusion h.1)
    simp [hp, Except.isOk, Except.toBool]

/-- C7: the temporal-window check runs before the ticker/amount
combination check: a builder violating both fails with
`InvalidBeforeAfter`, not `InvalidCombination`. -/
theorem build_window_check_first (b : PositionIntentBuilder) (id : Uuid)
    (now : Timestamp) (bt af : Timestamp)
    (hb : b.before = some bt) (ha : b.after = some af) (hlt : bt < af)
    (_ht : b.ticker = .All)
    (_hd : ∃ d, b.amount = .Dollars d ∨ b.amount = .Shares d) :
    b.build id now = .error (.InvalidBeforeAfter bt af) := by
  simp [PositionIntentBuilder.build, hb, ha, hlt]

/-- Witness for C7: a builder with `before = 0 < after = 1`, ticker `All`
and amount `Dollars 1` fails with `InvalidBeforeAfter 0 1`. -/
theorem build_window_check_first_witness :
    ({ PositionIntent.builder "A" .All (.Dollars 1) with
        before := some 0, after := some 1 } : PositionIntentBuilder).build 0 0 =
      .error (.InvalidBeforeAfter 0 1) :=
  build_window_check_first _ 0 0 0 1 rfl rfl (by decide) rfl ⟨1, Or.inl rfl⟩

/-- C9: the generic string conversion into `TickerSpec` always yields the
`Ticker` variant holding the value's string rendering, never `All`; in
particular the string `All` converts to `Ticker All` (the `ToString`
rendering of a Rust `String` is the identity). -/
theorem tickerSpec_from_never_all :
    (∀ (T : Type) (toStr : T → String) (s : T),
      TickerSpec.fromToString toStr s = .Ticker (toStr s) ∧
      TickerSpec.fromToString toStr s ≠ .All) ∧
    TickerSpec.fromToString (fun s : String => s) "All" = .Ticker "All" := by
  refine ⟨fun T toStr s => ⟨rfl, ?_⟩, rfl⟩
  simp [TickerSpec.fromToString]

/-- C10: a fresh builder has `update_policy = Update` and every optional
field unset, and `build` with no setter calls succeeds (subject only to
the ticker/amount compatibility check), producing an intent with
`update_policy = Update` and all optional fields `none`. -/
theorem builder_defaults (strategy : String) (ticker : TickerSpec)
    (amount : AmountSpec) (id : Uuid) (now : Timestamp) :
    (PositionIntent.builder strategy ticker amount).update_policy = .Update ∧
    (PositionIntent.builder strategy ticker amount).sub_strategy = none ∧
    (PositionIntent.builder strategy ticker amount).decision_price = none ∧
    (PositionIntent.builder strategy ticker amount).limit_price = none ∧
    (PositionIntent.builder strategy ticker amount).stop_price = none ∧
    (PositionIntent.builder strategy ticker amount).before = none ∧
    (PositionIntent.builder strategy ticker amount).after = none ∧
    (¬(ticker = .All ∧ ∃ d, amount = .Dollars d ∨ amount = .Shares d) →
      (PositionIntent.builder strategy ticker amount).build id now =
        .ok { id := id, strategy := strategy, sub_strategy := none,
              timestamp := now, ticker := ticker, amount := amount,
              update_policy := .Update, decision_price := none,
              limit_price := none, stop_price := none,
              before := none, after := none }) := by
  refine ⟨rfl, rfl, rfl, rfl, rfl, rfl, rfl, ?_⟩
  intro h
  cases ticker <;> cases amount <;>
    simp_all [PositionIntent.builder, PositionIntentBuilder.build,
      PositionIntentBuilder.finishBuild]

/-- Witness for C10: `builder A AAPL (Dollars 1)` builds directly into
the expected default-valued intent. -/
theorem builder_defaults_witness :
    (PositionIntent.builder "A" (.Ticker "AAPL") (.Dollars 1)).build 7 9 =
      .ok { id := 7, strategy := "A", sub_strategy := none, timestamp := 9,
            ticker := .Ticker "AAPL", amount := .Dollars 1,
            update_policy := .Update, decision_price := none,
            limit_price := none, stop_price := none,
            before := none, after := none } :=
  (builder_defaults "A" (.Ticker "AAPL") (.Dollars 1) 7 9).2.2.2.2.2.2.2
    (fun h => TickerSpec.noConfusion h.1)

/-! ### Serialization model

Model of the serde-derived structured-text (JSON) encoding declared by
the attributes in `src/lib.rs`: `AmountSpec` and `UpdatePolicy` carry
`rename_all = snake_case`, `TickerSpec` carries `rename_all = lowercase`,
and every optional `PositionIntent` field carries
`skip_serializing_if = Option::is_none`. Scalar leaves (decimals, uuids,
timestamps) are modelled as JSON leaves holding the modelled value
directly; the deserializer is keyed on field names, with missing optional
fields decoding to `none`, as serde does. -/

inductive Json where
  | str (s : String)
  | int (n : Int)
  | dec (q : Decimal)
  | obj (fields : List (String × Json))

def encodeDecimal (d : Decimal) : Json := .dec d

def decodeDecimal : Json → Option Decimal
  | .dec q => some q
  | _ => none

def decodeString : Json → Option String
  | .str s => some s
  | _ => none

def encodeUuid (u : Uuid) : Json := .int (Int.ofNat u)

def decodeUuid : Json → Option Uuid
  | .int (.ofNat n) => some n
  | _ => none

def encodeTimestamp (t : Timestamp) : Json := .int t

def decodeTimestamp : Json → Option Timestamp
  | .int n => some n
  | _ => none

/-- Serde encoding of `AmountSpec` (externally tagged, snake_case):
newtype variants as one-entry objects, the unit variant as a string. -/
def AmountSpec.toJson : AmountSpec → Json
  | .Dollars d => .obj [("dollars", encodeDecimal d)]
  | .Shares d => .obj [("shares", encodeDecimal d)]
  | .Percent d => .obj [("percent", encodeDecimal d)]
  | .Zero => .str "zero"

def AmountSpec.fromJson : Json → Option AmountSpec
  | .str s => if s = "zero" then some .Zero else none
  | .obj [(k, v)] =>
    if k = "dollars" then (decodeDecimal v).map .Dollars
    else if k = "shares" then (decodeDecimal v).map .Shares
    else if k = "percent" then (decodeDecimal v).map .Percent
    else none
  | _ => none

/-- Serde encoding of `TickerSpec` (externally tagged, lowercase). -/
def TickerSpec.toJson : TickerSpec → Json
  | .Ticker s => .obj [("ticker", .str s)]
  | .All => .str "all"

def TickerSpec.fromJson : Json → Option TickerSpec
  | .str s => if s = "all" then some .All else none
  | .obj [(k, v)] =>
    if k = "ticker" then (decodeString v).map .Ticker else none
  | _ => none

/-- Serde encoding of `UpdatePolicy` (unit variants, snake_case). -/
def UpdatePolicy.toJson : UpdatePolicy → Json
  | .Retain => .str "retain"
  | .RetainLong => .str "retain_long"
  | .RetainShort => .str "retain_short"
  | .Update => .str "update"

def UpdatePolicy.fromJson : Json → Option UpdatePolicy
  | .str s =>
    if s = "retain" then some .Retain
    else if s = "retain_long" then some .RetainLong
    else if s = "retain_short" then some .RetainShort
    else if s = "update" then some .Update
    else none
  | _ => none

/-- `skip_serializing_if = Option::is_none`: an unset optional field
contributes no entry at all to the encoded object. -/
def optField {α : Type} (k : String) (f : α → Json) : Option α → List (String × Json)
  | none => []
  | some v => [(k, f v)]

/-- Serde encoding of `PositionIntent`: an object with one entry per
field, in declaration order, optional fields omitted when unset. -/
def PositionIntent.toJson (p : PositionIntent) : Json :=
  .obj
    ([("id", encodeUuid p.id), ("strategy", .str p.strategy)] ++
      optField "sub_strategy" Json.str p.sub_strategy ++
      [("timestamp", encodeTimestamp p.timestamp),
       ("ticker", p.ticker.toJson),
       ("amount", p.amount.toJson),
       ("update_policy", p.update_policy.toJson)] ++
      optField "decision_price" encodeDecimal p.decision_price ++
      optField "limit_price" encodeDecimal p.limit_price ++
      optField "stop_price" encodeDecimal p.stop_price ++
      optField "before" encodeTimestamp p.before ++
      optField "after" encodeTimestamp p.after)

def lookupField : List (String × Json) → String → Option Json
  | [], _ => none
  | (k2, v) :: rest, k => if k2 = k then some v else lookupField rest k

def decodeReq {α : Type} (fields : List (String × Json)) (k : String)
    (f : Json → Option α) : Option α :=
  (lookupField fields k).bind f

/-- Serde decodes a missing optional field as `none`. -/
def decodeOpt {α : Type} (fields : List (String × Json)) (k : String)
    (f : Json → Option α) : Option (Option α) :=
  match lookupField fields k with
  | none => some none
  | some j => (f j).map some

/-- Serde decoding of `PositionIntent`: field-name keyed, order
independent, every non-optional field required. -/
def PositionIntent.fromJson : Json → Option PositionIntent
  | .obj fields => do
    let id ← decodeReq fields "id" decodeUuid
    let strategy ← decodeReq fields "strategy" decodeString
    let sub_strategy ← decodeOpt fields "sub_strategy" decodeString
    let timestamp ← decodeReq fields "timestamp" decodeTimestamp
    let ticker ← decodeReq fields "ticker" TickerSpec.fromJson
    let amount ← decodeReq fields "amount" AmountSpec.fromJson
    let update_policy ← decodeReq fields "update_policy" UpdatePolicy.fromJson
    let decision_price ← decodeOpt fields "decision_price" decodeDecimal
    let limit_price ← decodeOpt fields "limit_price" decodeDecimal
    let stop_price ← decodeOpt fields "stop_price" decodeDecimal
    let before ← decodeOpt fields "before" decodeTimestamp
    let after ← decodeOpt fields "after" decodeTimestamp
    pure
      { id := id, strategy := strategy, sub_strategy := sub_strategy,
        timestamp := timestamp, ticker := ticker, amount := amount,
        update_policy := update_policy, decision_price := decision_price,
        limit_price := limit_price, stop_price := stop_price,
        before := before, after := after }
  | _ => none

/-- The keys of an encoded object. -/
def Json.objKeys : Json → List String
  | .obj fields => fields.map Prod.fst
  | _ => []

lemma amountSpec_fromJson_toJson (a : AmountSpec) :
    AmountSpec.fromJson a.toJson = some a := by
  cases a <;> rfl

lemma tickerSpec_fromJson_toJson (t : TickerSpec) :
    TickerSpec.fromJson t.toJson = some t := by
  cases t <;> rfl

lemma updatePolicy_fromJson_toJson (u : UpdatePolicy) :
    UpdatePolicy.fromJson u.toJson = some u := by
  cases u <;> rfl

set_option maxHeartbeats 4000000 in
lemma positionIntent_fromJson_toJson (p : PositionIntent) :
    PositionIntent.fromJson p.toJson = some p := by
  obtain ⟨id, strategy, sub, ts, tick, amt, pol, dp, lp, sp, bf, af⟩ := p
  cases sub <;> cases dp <;> cases lp <;> cases sp <;> cases bf <;> cases af <;>
    simp [PositionIntent.toJson, PositionIntent.fromJson, optField,
      lookupField, decodeReq, decodeOpt, decodeUuid, decodeString,
      decodeTimestamp, decodeDecimal, encodeUuid, encodeTimestamp,
      encodeDecimal, amountSpec_fromJson_toJson, tickerSpec_fromJson_toJson,
      updatePolicy_fromJson_toJson]

lemma exists_pair_mem_optField {α : Type} (k k2 : String) (f : α → Json)
    (o : Option α) :
    (∃ x, (k2, x) ∈ optField k f o) ↔ (k2 = k ∧ o.isSome = true) := by
  cases o <;> simp [optField]

/-- C8: for every `PositionIntent`, the structured-text encoding
satisfies `encode (decode (encode p)) = encode p`, and an optional field
appears among the encoded object's keys exactly when it is set — unset
optional fields are entirely absent from the encoded form. -/
theorem encode_roundtrip_and_omits_unset (p : PositionIntent) :
    (PositionIntent.fromJson p.toJson).map PositionIntent.toJson =
      some p.toJson ∧
    (("sub_strategy" ∈ p.toJson.objKeys) ↔ p.sub_strategy.isSome = true) ∧
    (("decision_price" ∈ p.toJson.objKeys) ↔ p.decision_price.isSome = true) ∧
    (("limit_price" ∈ p.toJson.objKeys) ↔ p.limit_price.isSome = true) ∧
    (("stop_price" ∈ p.toJson.objKeys) ↔ p.stop_price.isSome = true) ∧
    (("before" ∈ p.toJson.objKeys) ↔ p.before.isSome = true) ∧
    (("after" ∈ p.toJson.objKeys) ↔ p.after.isSome = true) := by
  refine ⟨by rw [positionIntent_fromJson_toJson]; rfl, ?_, ?_, ?_, ?_, ?_, ?_⟩ <;>
    simp [PositionIntent.toJson, Json.objKeys, exists_pair_mem_optField]

end PositionIntents
